import Mathlib

/-!
Verification of the Astra Ledger core: a shallow embedding of the
dual-mode persistence adapter (`src/services/firebaseService.ts`), the
extraction agents (`src/services/geminiService.ts`) and the send
orchestrator (`handleSend` in the App component) with proofs of the
specified properties.

Modelling conventions:
* JS strings are Lean `String`s; the regex `/^(how|...)/i` becomes a
  case-insensitive prefix test over the fixed word list.
* JS numbers holding amounts are `Int`; epoch times are `Nat`.
* A Firestore-style timestamp is a record with `seconds`, `nanoseconds`
  and an optional `toMillis` accessor (`none` when the object does not
  expose the method, e.g. after a JSON round trip strips functions);
  the accessor field holds the value the method returns at the instant
  it is observed — for the local mock `() => Date.now()` that is the
  clock at call time, not the creation time.
* `Array.prototype.sort` with the numeric comparator `timeB - timeA`
  (a stable sort ordered by the comparator) is `List.mergeSort` with
  the corresponding boolean relation.
* Remote AI calls are opaque: each agent takes the would-be remote
  result as an oracle argument, and reports whether the remote service
  was actually invoked.
-/

namespace Astra

/-- `AgentStatus` from `src/types.ts`. -/
inductive AgentStatus where
  | idle
  | vision
  | parsing
  | ledger
  | summary
deriving DecidableEq, Repr

/-- Firestore-style timestamp shape (`createdAt` values).  `toMillis` is
`some m` when the object exposes a `toMillis()` accessor that returns
`m` at the observed call instant, `none` when it exposes no such method
(plain parsed JSON has no methods). -/
structure Ts where
  seconds : Nat
  nanoseconds : Nat
  toMillis : Option Nat
deriving DecidableEq, Repr

/-- `Expense` from `src/types.ts` (optional fields are `Option`). -/
structure Expense where
  id : Option String := none
  item : String
  amount : Int
  category : String
  createdAt : Option Ts := none
  originalText : Option String := none
deriving DecidableEq, Repr

/-- Cloud-mode sort key from `subscribeToExpenses`:
`a.createdAt?.toMillis ? a.createdAt.toMillis() : 0`. -/
def cloudKey (e : Expense) : Nat :=
  match e.createdAt with
  | some ts =>
    match ts.toMillis with
    | some m => m
    | none => 0
  | none => 0

/-- Local-mode sort key from `subscribeToExpenses`:
`a.createdAt?.seconds ? a.createdAt.seconds * 1000 : 0`
(`seconds` equal to `0` is falsy in JS, yielding the default `0`,
which coincides with `0 * 1000`). -/
def localKey (e : Expense) : Nat :=
  match e.createdAt with
  | some ts => if ts.seconds = 0 then 0 else ts.seconds * 1000
  | none => 0

/-- JS `Array.prototype.sort` with comparator `key b - key a`
(stable, descending by `key`), as a stable merge sort. -/
def sortDescBy (key : Expense → Nat) (l : List Expense) : List Expense :=
  l.mergeSort (fun a b => key b ≤ key a)

/-- Record set delivered to the `subscribe` callback in cloud mode
(`firebaseService.ts`, Firebase branch of `subscribeToExpenses`):
the snapshot's documents sorted descending by `cloudKey`. -/
def subscribeToExpenses_cloud (docs : List Expense) : List Expense :=
  sortDescBy cloudKey docs

/-- Record set delivered to the `subscribe` callback in local mode
(`firebaseService.ts`, local branch of `subscribeToExpenses`):
the stored list sorted descending by `localKey`. -/
def subscribeToExpenses_local (store : List Expense) : List Expense :=
  sortDescBy localKey store

/-! ### JS string primitives, modelled structurally over `List Char` -/

/-- JS `String.prototype.trim` on the character sequence. -/
def jsTrim (l : List Char) : List Char :=
  ((l.dropWhile Char.isWhitespace).reverse.dropWhile Char.isWhitespace).reverse

/-- JS `String.prototype.toLowerCase` on the character sequence
(ASCII case folding, which is all the fixed word list needs). -/
def jsToLower (l : List Char) : List Char := l.map Char.toLower

/-- `text.trim() === ''` — true exactly when every character is whitespace. -/
def trimEmpty (text : String) : Bool := text.data.all Char.isWhitespace

/-! ### Gemini service (`src/services/geminiService.ts`)

The remote model calls are opaque: each agent takes the remote outcome
as an oracle argument and additionally reports (second component)
whether the remote service was invoked at all. -/

/-- `item.toLowerCase().trim()` — the habit-map key of `buildMemoryContext`. -/
def normKey (s : String) : String := ⟨jsTrim (jsToLower s.data)⟩

/-- One step of the `expenses.forEach` loop of `buildMemoryContext`:
records with an empty item or category are skipped (JS falsiness of
`''`), and a key already present keeps its first category. -/
def habitFold (m : List (String × String)) (e : Expense) : List (String × String) :=
  if e.item != "" && e.category != "" then
    if (m.lookup (normKey e.item)).isSome then m
    else m ++ [(normKey e.item, e.category)]
  else m

/-- The `habitMap` object of `buildMemoryContext`, as an
insertion-ordered association list. -/
def habitMap (expenses : List Expense) : List (String × String) :=
  expenses.foldl habitFold []

/-- `buildMemoryContext` from `geminiService.ts`:
`Object.entries(habitMap).slice(0, 50).map(...).join(", ")`. -/
def buildMemoryContext (expenses : List Expense) : String :=
  String.intercalate ", "
    (((habitMap expenses).take 50).map
      (fun p => "\"" ++ p.1 ++ "\": \"" ++ p.2 ++ "\""))

/-- `runParsingAgent`: returns `[]` before any remote work when no API
key is configured; otherwise the (opaque) remote outcome, with the
service's own failure already folded into the oracle (the source
catches errors and returns `[]`). -/
def runParsingAgent (hasKey : Bool) (text memoryContext : String)
    (remote : List Expense) : List Expense × Bool :=
  if hasKey then (remote, true) else ([], false)

/-- `runVisionAgent`: same no-key short-circuit as the parsing agent;
the image payload is opaque to the model. -/
def runVisionAgent (hasKey : Bool) (remote : List Expense) :
    List Expense × Bool :=
  if hasKey then (remote, true) else ([], false)

/-- `runSummaryAgent`: `"API Key missing."` without a remote call when
no key is configured, otherwise the remote answer. -/
def runSummaryAgent (hasKey : Bool) (queryText : String)
    (expenseData : List Expense) (remote : String) : String × Bool :=
  if hasKey then (remote, true) else ("API Key missing.", false)

/-! ### The send orchestrator (`handleSend` in the App component) -/

/-- The fixed lead-word alternatives of the classification regex
`/^(how|what|show|list|sum|calculate|analyze|total|spent)/i`. -/
def leadWords : List String :=
  ["how", "what", "show", "list", "sum", "calculate", "analyze", "total", "spent"]

/-- `isQuestion` from `handleSend`: the case-insensitive anchored
alternation holds exactly when the lowercased text starts with one of
the lead words. -/
def isQuestion (text : String) : Bool :=
  leadWords.any (fun w => w.data.isPrefixOf (jsToLower text.data))

def currencySymbol : String := "₹"

/-- Confirmation text `Ledger updated. Total: ${CURRENCY_SYMBOL} ${total.toLocaleString()}`
(`toLocaleString` modelled as plain decimal rendering). -/
def ledgerUpdatedText (total : Int) : String :=
  "Ledger updated. Total: " ++ currencySymbol ++ " " ++ toString total

def imageNoTxText : String :=
  "I couldn't identify any clear transactions in that image."

def textNoTxText : String :=
  "I couldn't detect a valid expense transaction."

def errorText : String :=
  "System encountered an error processing your request."

/-- A bot message appended by `handleSend` (`text` plus the optional
`data` payload of extracted records). -/
structure BotMsg where
  text : String
  data : Option (List Expense) := none
deriving DecidableEq, Repr

/-- Inputs of one `handleSend` pass.  Component state that the pass
reads (`input`, `expenses`, `isProcessing`, `agentStatus`, attachment
presence) plus the oracles for the opaque external effects: the remote
agents' outcomes, whether `fileToBase64` resolves, and whether the
`Promise.all` of the `addExpense` calls resolves. -/
structure SendInput where
  input : String
  hasImage : Bool
  expenses : List Expense
  isProcessing : Bool
  agentStatus : AgentStatus
  hasKey : Bool
  conversionOk : Bool
  visionRemote : List Expense
  parsingRemote : List Expense
  summaryRemote : String
  commitOk : Bool

/-- Observable outcome of one `handleSend` pass: the records passed to
the adapter's create operation (in order), the bot messages appended,
which agents ran (and which actually reached the remote service), and
the final `agentStatus` / `isProcessing` flags. -/
structure SendResult where
  committed : List Expense
  botMessages : List BotMsg
  visionCalled : Bool
  parsingCalled : Bool
  summaryCalled : Bool
  visionRemoteCalled : Bool
  parsingRemoteCalled : Bool
  agentStatus : AgentStatus
  isProcessing : Bool
deriving DecidableEq, Repr

/-- `handleSend` from the App component, step for step:
guard, vision agent, question/parsing branch, commit, fallback
messages, catch, and the `finally` block restoring `idle`. -/
def handleSend (inp : SendInput) : SendResult :=
  -- `if ((!input.trim() && !selectedImage) || isProcessing) return;`
  if (trimEmpty inp.input && !inp.hasImage) || inp.isProcessing then
    { committed := [], botMessages := [], visionCalled := false,
      parsingCalled := false, summaryCalled := false,
      visionRemoteCalled := false, parsingRemoteCalled := false,
      agentStatus := inp.agentStatus, isProcessing := inp.isProcessing }
  else
    let userText := inp.input
    -- A. Vision agent: `await fileToBase64(userImage)` may reject, in
    -- which case the outer catch posts the generic error and the
    -- `finally` block still restores `idle`.
    if inp.hasImage && !inp.conversionOk then
      { committed := [], botMessages := [{ text := errorText }],
        visionCalled := false, parsingCalled := false,
        summaryCalled := false, visionRemoteCalled := false,
        parsingRemoteCalled := false,
        agentStatus := .idle, isProcessing := false }
    else
      let vis := if inp.hasImage then runVisionAgent inp.hasKey inp.visionRemote
                 else ([], false)
      -- B. Text parsing / summary
      if !trimEmpty userText && isQuestion userText then
        { committed := [],
          botMessages :=
            [{ text := (runSummaryAgent inp.hasKey userText inp.expenses
                inp.summaryRemote).1 }],
          visionCalled := inp.hasImage, parsingCalled := false,
          summaryCalled := true, visionRemoteCalled := vis.2,
          parsingRemoteCalled := false,
          agentStatus := .idle, isProcessing := false }
      else
        let par := if !trimEmpty userText then
            runParsingAgent inp.hasKey userText
              (buildMemoryContext inp.expenses) inp.parsingRemote
          else ([], false)
        let extracted := vis.1 ++ par.1
        -- C. Commit to ledger
        if !extracted.isEmpty then
          if inp.commitOk then
            let total := extracted.foldl (fun s e => s + e.amount) 0
            { committed := extracted,
              botMessages := [{ text := ledgerUpdatedText total, data := some extracted }],
              visionCalled := inp.hasImage,
              parsingCalled := !trimEmpty userText,
              summaryCalled := false, visionRemoteCalled := vis.2,
              parsingRemoteCalled := par.2,
              agentStatus := .idle, isProcessing := false }
          else
            { committed := extracted,
              botMessages := [{ text := errorText }],
              visionCalled := inp.hasImage,
              parsingCalled := !trimEmpty userText,
              summaryCalled := false, visionRemoteCalled := vis.2,
              parsingRemoteCalled := par.2,
              agentStatus := .idle, isProcessing := false }
        else
          { committed := [],
            botMessages :=
              if userText == "" && inp.hasImage then
                [{ text := imageNoTxText }]
              else if userText != "" && !inp.hasImage then
                [{ text := textNoTxText }]
              else [],
            visionCalled := inp.hasImage,
            parsingCalled := !trimEmpty userText,
            summaryCalled := false, visionRemoteCalled := vis.2,
            parsingRemoteCalled := par.2,
            agentStatus := .idle, isProcessing := false }

/-! ### Persistence adapter writes (`firebaseService.ts`) -/

/-- The mock timestamp written by local-mode `addExpense` at creation
instant `now` (epoch ms), as it exists in memory when observed at
instant `t`: `seconds` is frozen to `floor(now / 1000)` at creation,
while the `toMillis` closure is `() => Date.now()`, so calling it
yields the clock at call time `t` — not the creation time. -/
def mockTs (now t : Nat) : Ts :=
  { seconds := now / 1000, nanoseconds := 0, toMillis := some t }

/-- The in-memory record built by local-mode `addExpense`
(`{...expense, id, originalText, createdAt: mock}`), observed at
instant `t`. -/
def mkLocalExpense (exp : Expense) (originalText freshId : String)
    (now t : Nat) : Expense :=
  { exp with
    id := some freshId,
    originalText := some originalText,
    createdAt := some (mockTs now t) }

/-- `JSON.stringify` followed by `JSON.parse` on a timestamp
(`saveLocalData` / `getLocalData`): functions are not serialized, so
the stored object keeps only `seconds` and `nanoseconds` and exposes
no `toMillis` method. -/
def jsonRoundTripTs (ts : Ts) : Ts :=
  { seconds := ts.seconds, nanoseconds := ts.nanoseconds, toMillis := none }

/-- The JSON round trip on a record: strings and numbers survive, the
timestamp loses its `toMillis` closure. -/
def jsonRoundTrip (e : Expense) : Expense :=
  { e with createdAt := e.createdAt.map jsonRoundTripTs }

/-- Local-mode `addExpense`: `saveLocalData([...current, newExpense])`
— appends the new record at the end of the stored list; since
`saveLocalData` stringifies and every later `getLocalData` parses, the
record as stored (and as seen by every subscriber) is the JSON round
trip of the in-memory one. -/
def addExpense_local (store : List Expense) (exp : Expense)
    (originalText freshId : String) (now : Nat) : List Expense :=
  store ++ [jsonRoundTrip (mkLocalExpense exp originalText freshId now now)]

/-- Local-mode `removeExpense`: `current.filter(e => e.id !== expenseId)`. -/
def removeExpense_local (store : List Expense) (expenseId : String) :
    List Expense :=
  store.filter (fun e => e.id ≠ some expenseId)

/-- Modelled from the spec: the cloud document store's `deleteDoc`
(`delete` removes by id; no-op if absent, no error) — the store itself
is an external collaborator, so its delete is modelled as removal of
the documents carrying the given id. -/
def firestoreDelete (docs : List Expense) (expenseId : String) :
    List Expense :=
  docs.filter (fun e => e.id ≠ some expenseId)

/-! ### Spec-side characterization of the memory context -/

/-- The (key, category) pair a record contributes to the habit map,
if any: records with an empty item or category contribute nothing. -/
def toHabitPair (e : Expense) : Option (String × String) :=
  if e.item != "" && e.category != "" then some (normKey e.item, e.category)
  else none

/-- The raw history of habit pairs, in record order. -/
def habitPairs (l : List Expense) : List (String × String) :=
  l.filterMap toHabitPair

/-- First-occurrence-wins deduplication by key, keeping history order;
`seen` collects the keys already emitted. -/
def firstWinsAux (seen : List String) :
    List (String × String) → List (String × String)
  | [] => []
  | p :: rest =>
    if p.1 ∈ seen then firstWinsAux seen rest
    else p :: firstWinsAux (p.1 :: seen) rest

/-- First-occurrence-wins deduplication by key — the spec's
"deduplicated mapping from lowercased item-label to the first category
ever recorded for that label". -/
def firstWins (l : List (String × String)) : List (String × String) :=
  firstWinsAux [] l

/-! ### Sample records and inputs used by witnesses and counterexamples -/

def expCoffeeFood : Expense := { item := "coffee", amount := 120, category := "food" }

def expCoffeeDrinks : Expense := { item := "Coffee", amount := 80, category := "drinks" }

/-- A record with no timestamp at all. -/
def expNoTime : Expense := { item := "cab", amount := 300, category := "transport" }

/-- A record carrying a timestamp of `s` epoch seconds in both shapes. -/
def expAt (s : Nat) : Expense :=
  { item := "tea", amount := 20, category := "food",
    createdAt := some { seconds := s, nanoseconds := 0, toMillis := some (s * 1000) } }

/-- A neutral send pass: cloud key configured, no attachment, all
external effects succeed, all remote outcomes empty. -/
def baseSend : SendInput :=
  { input := "", hasImage := false, expenses := [], isProcessing := false,
    agentStatus := .idle, hasKey := true, conversionOk := true,
    visionRemote := [], parsingRemote := [], summaryRemote := "answer",
    commitOk := true }

/-- A text-only pass whose parse result commits but whose `Promise.all`
rejects (total failure). -/
def sendFailedCommit : SendInput :=
  { baseSend with
    input := "bought pens", parsingRemote := [expCoffeeFood], commitOk := false }

/-- The claim C1 example turn `"Spent 500 on dinner"`. -/
def sendSpentDinner : SendInput :=
  { baseSend with
    input := "Spent 500 on dinner",
    parsingRemote := [{ item := "dinner", amount := 500, category := "food" }],
    summaryRemote := "You spent 500." }

/-- The claim C1 example turn `"How much did I spend on food?"`. -/
def sendHowMuch : SendInput :=
  { baseSend with
    input := "How much did I spend on food?",
    summaryRemote := "You spent 500 on food." }

/-- A non-question text turn together with an attached image, both
extractions coming back empty. -/
def sendBothEmpty : SendInput :=
  { baseSend with input := "bought nothing", hasImage := true }

/-- An image-only turn whose vision extraction comes back empty. -/
def sendImageEmpty : SendInput :=
  { baseSend with hasImage := true }

/-- A question turn with an attached image whose vision extraction
finds one record. -/
def sendQuestionWithImage : SendInput :=
  { baseSend with
    input := "what did I buy?", hasImage := true, visionRemote := [expCoffeeFood] }

/-- A turn committing one vision record and one parsed record. -/
def sendBothResults : SendInput :=
  { baseSend with
    input := "coffee 120", hasImage := true,
    visionRemote := [expCoffeeDrinks], parsingRemote := [expCoffeeFood] }

/-- A text-only non-question turn with no API key configured. -/
def sendNoKey : SendInput :=
  { baseSend with
    input := "bought pens", hasKey := false, parsingRemote := [expCoffeeFood] }

/-! ### Helper lemmas -/

theorem sortDescBy_perm (key : Expense → Nat) (l : List Expense) :
    (sortDescBy key l).Perm l :=
  List.mergeSort_perm l _

theorem sortDescBy_pairwise (key : Expense → Nat) (l : List Expense) :
    (sortDescBy key l).Pairwise (fun a b => key b ≤ key a) := by
  have h := @List.sorted_mergeSort Expense
    (fun a b : Expense => decide (key b ≤ key a))
    (fun a b c hab hbc => by
      simp only [decide_eq_true_eq] at *
      exact le_trans hbc hab)
    (fun a b => by
      simp only [Bool.or_eq_true, decide_eq_true_eq]
      exact (Nat.le_total (key b) (key a)))
    l
  exact h.imp (fun hab => by simpa using hab)

theorem sortDescBy_pairwise_lt (key : Expense → Nat) (l : List Expense)
    (h : (l.map key).Nodup) :
    (sortDescBy key l).Pairwise (fun a b => key b < key a) := by
  have h1 := sortDescBy_pairwise key l
  have h2 : ((sortDescBy key l).map key).Nodup :=
    (((sortDescBy_perm key l).map key).nodup_iff).mpr h
  have h3 : (sortDescBy key l).Pairwise (fun a b => key a ≠ key b) := by
    simpa [List.Nodup, List.pairwise_map] using h2
  exact (h1.and h3).imp (fun hab => lt_of_le_of_ne hab.1 (Ne.symm hab.2))

theorem trimEmpty_ne_empty {s : String} (h : trimEmpty s = false) : s ≠ "" := by
  intro he
  subst he
  simp [trimEmpty] at h

theorem filter_id_eq_self {l : List Expense} {expenseId : String}
    (hl : some expenseId ∉ l.map Expense.id) :
    l.filter (fun e => e.id ≠ some expenseId) = l := by
  apply List.filter_eq_self.mpr
  intro a ha
  have hne : a.id ≠ some expenseId := by
    intro h
    exact hl (by simpa [h] using List.mem_map_of_mem Expense.id ha)
  simpa using hne

/-! ### Claim theorems -/

/-- C2: in both cloud and local mode, the record set delivered to the
`subscribe` callback is a permutation of the loaded records, ordered
descending by creation-time key (strictly so when the keys are pairwise
distinct), and a record with no timestamp gets the implicit key `0`
(hence sorts last). -/
theorem subscribe_sorted_desc (docs store : List Expense) :
    (subscribeToExpenses_cloud docs).Perm docs ∧
    (subscribeToExpenses_cloud docs).Pairwise (fun a b => cloudKey b ≤ cloudKey a) ∧
    ((docs.map cloudKey).Nodup →
      (subscribeToExpenses_cloud docs).Pairwise (fun a b => cloudKey b < cloudKey a)) ∧
    (subscribeToExpenses_local store).Perm store ∧
    (subscribeToExpenses_local store).Pairwise (fun a b => localKey b ≤ localKey a) ∧
    ((store.map localKey).Nodup →
      (subscribeToExpenses_local store).Pairwise (fun a b => localKey b < localKey a)) ∧
    (∀ e : Expense, e.createdAt = none → cloudKey e = 0 ∧ localKey e = 0) :=
  ⟨sortDescBy_perm _ _, sortDescBy_pairwise _ _, sortDescBy_pairwise_lt _ _,
   sortDescBy_perm _ _, sortDescBy_pairwise _ _, sortDescBy_pairwise_lt _ _,
   fun e he => by simp [cloudKey, localKey, he]⟩

/-- C2 witness: the ordering contract instantiated on a concrete pair of
records (distinct keys) in both modes, and on a record with no
timestamp. -/
theorem subscribe_sorted_desc_witness :
    (subscribeToExpenses_cloud [expAt 5, expAt 9]).Perm [expAt 5, expAt 9] ∧
    (subscribeToExpenses_cloud [expAt 5, expAt 9]).Pairwise
      (fun a b => cloudKey b < cloudKey a) ∧
    (subscribeToExpenses_local [expAt 5, expAt 9]).Pairwise
      (fun a b => localKey b < localKey a) ∧
    (cloudKey expNoTime = 0 ∧ localKey expNoTime = 0) := by
  have h := subscribe_sorted_desc [expAt 5, expAt 9] [expAt 5, expAt 9]
  exact ⟨h.1, h.2.2.1 (by decide), h.2.2.2.2.2.1 (by decide),
    h.2.2.2.2.2.2 expNoTime rfl⟩

/-- C9: deleting an id absent from the stored set is a no-op in both
storage modes — the stored list is unchanged and subsequent
subscription callbacks deliver an unchanged record set. -/
theorem delete_absent_noop (store docs : List Expense) (expenseId : String) :
    (some expenseId ∉ store.map Expense.id →
      removeExpense_local store expenseId = store ∧
      subscribeToExpenses_local (removeExpense_local store expenseId) =
        subscribeToExpenses_local store) ∧
    (some expenseId ∉ docs.map Expense.id →
      firestoreDelete docs expenseId = docs ∧
      subscribeToExpenses_cloud (firestoreDelete docs expenseId) =
        subscribeToExpenses_cloud docs) := by
  constructor
  · intro h
    have he : removeExpense_local store expenseId = store := filter_id_eq_self h
    exact ⟨he, by rw [he]⟩
  · intro h
    have he : firestoreDelete docs expenseId = docs := filter_id_eq_self h
    exact ⟨he, by rw [he]⟩

/-- C9 witness: deleting the id `"ghost"`, absent from a concrete
two-record store, leaves the store and the delivered sets unchanged in
both modes. -/
theorem delete_absent_noop_witness :
    removeExpense_local [expAt 5, expNoTime] "ghost" = [expAt 5, expNoTime] ∧
    subscribeToExpenses_local (removeExpense_local [expAt 5, expNoTime] "ghost") =
      subscribeToExpenses_local [expAt 5, expNoTime] ∧
    firestoreDelete [expAt 5, expNoTime] "ghost" = [expAt 5, expNoTime] ∧
    subscribeToExpenses_cloud (firestoreDelete [expAt 5, expNoTime] "ghost") =
      subscribeToExpenses_cloud [expAt 5, expNoTime] := by
  have h := delete_absent_noop [expAt 5, expNoTime] [expAt 5, expNoTime] "ghost"
  have h1 := h.1 (by decide)
  have h2 := h.2 (by decide)
  exact ⟨h1.1, h1.2, h2.1, h2.2⟩

/-- C8: once a send pass is accepted (non-blank text or an attachment,
no pass already in flight), the final step always restores `idle` and
clears the processing flag — on success, partial or total failure, and
on the question short-circuit alike. -/
theorem idle_restored (inp : SendInput) (hp : inp.isProcessing = false)
    (hg : trimEmpty inp.input = false ∨ inp.hasImage = true) :
    (handleSend inp).agentStatus = .idle ∧ (handleSend inp).isProcessing = false := by
  have hguard : ((trimEmpty inp.input && !inp.hasImage) || inp.isProcessing) = false := by
    rcases hg with h | h <;> simp [h, hp]
  cases ht : trimEmpty inp.input <;>
  cases himg : inp.hasImage <;>
  cases hconv : inp.conversionOk <;>
  cases hq : isQuestion inp.input <;>
  cases hok : inp.commitOk <;>
    simp_all [handleSend] <;>
    split_ifs <;> simp

/-- C8 witness: a pass that ends in a failed commit (total failure of
the `Promise.all`) still finishes idle and not processing. -/
theorem idle_restored_witness :
    (handleSend sendFailedCommit).agentStatus = .idle ∧
    (handleSend sendFailedCommit).isProcessing = false :=
  idle_restored sendFailedCommit rfl (Or.inl (by decide))

/-- C1 counterexample: `"Spent 500 on dinner"` starts with the lead
word `spent`, so the code classifies it as a question — the summary
path runs, the parsing path is never attempted and nothing is
committed, contrary to the claim's example. -/
theorem classification_spent_counterexample :
    isQuestion "Spent 500 on dinner" = true ∧
    (handleSend sendSpentDinner).summaryCalled = true ∧
    (handleSend sendSpentDinner).parsingCalled = false ∧
    (handleSend sendSpentDinner).committed = [] := by
  decide

/-- C1 amended: a turn with non-blank text is routed to the summary
path exactly when the text case-insensitively starts with one of the
fixed lead words, the parsing path is attempted exactly otherwise, a
question turn commits nothing, and in particular both
`"How much did I spend on food?"` and `"Spent 500 on dinner"` are
classified as questions (the latter starts with `spent`). -/
theorem classification_lead_words (inp : SendInput)
    (hp : inp.isProcessing = false) (ht : trimEmpty inp.input = false)
    (hc : inp.hasImage = true → inp.conversionOk = true) :
    ((handleSend inp).summaryCalled = true ↔
      leadWords.any (fun w => w.data.isPrefixOf (jsToLower inp.input.data)) = true) ∧
    (handleSend inp).parsingCalled = !(isQuestion inp.input) ∧
    ((handleSend inp).summaryCalled = true → (handleSend inp).committed = []) ∧
    isQuestion "How much did I spend on food?" = true ∧
    isQuestion "Spent 500 on dinner" = true := by
  have hx : leadWords.any (fun w => w.data.isPrefixOf (jsToLower inp.input.data)) =
      isQuestion inp.input := rfl
  rw [hx]
  refine ⟨?_, ?_, ?_, by decide, by decide⟩ <;>
  · cases hq : isQuestion inp.input <;>
    cases himg : inp.hasImage <;>
    cases hconv : inp.conversionOk <;>
    cases hok : inp.commitOk <;>
      simp_all [handleSend] <;>
      split_ifs <;> simp

/-- C1 witness: the amended classification applied to the concrete
turn `"How much did I spend on food?"`. -/
theorem classification_lead_words_witness :
    ((handleSend sendHowMuch).summaryCalled = true ↔
      leadWords.any
        (fun w => w.data.isPrefixOf (jsToLower sendHowMuch.input.data)) = true) ∧
    (handleSend sendHowMuch).parsingCalled = !(isQuestion sendHowMuch.input) ∧
    ((handleSend sendHowMuch).summaryCalled = true →
      (handleSend sendHowMuch).committed = []) :=
  (fun h => ⟨h.1, h.2.1, h.2.2.1⟩)
    (classification_lead_words sendHowMuch rfl (by decide) (fun h => by cases h))

/-- C4: on a question turn (non-blank text starting with a lead word),
no record reaches the adapter's create operation — the stored set is
untouched — while an attached image is still run through the vision
agent before the short-circuit: classification gates only the text
path. -/
theorem question_turn_frame (inp : SendInput)
    (hp : inp.isProcessing = false) (ht : trimEmpty inp.input = false)
    (hq : isQuestion inp.input = true)
    (hc : inp.hasImage = true → inp.conversionOk = true) :
    (handleSend inp).committed = [] ∧
    (handleSend inp).visionCalled = inp.hasImage ∧
    (handleSend inp).summaryCalled = true := by
  cases himg : inp.hasImage <;> simp_all [handleSend]

/-- C4 witness: a question with an attached image whose vision agent
returns a candidate — still nothing is committed, yet the vision path
ran. -/
theorem question_turn_frame_witness :
    (handleSend sendQuestionWithImage).committed = [] ∧
    (handleSend sendQuestionWithImage).visionCalled = true ∧
    (handleSend sendQuestionWithImage).summaryCalled = true :=
  question_turn_frame sendQuestionWithImage rfl (by decide) (by decide)
    (fun _ => rfl)

/-- C3: whenever the concatenated vision ++ text candidate list is
non-empty on a non-question turn, exactly that list is handed to the
adapter's create operation, and if the joint await succeeds the
confirmation message reports the sum of the candidates' amounts and
carries the full candidate list. -/
theorem commit_phase_spec (inp : SendInput)
    (hp : inp.isProcessing = false)
    (hg : trimEmpty inp.input = false ∨ inp.hasImage = true)
    (hc : inp.hasImage = true → inp.conversionOk = true)
    (hnq : trimEmpty inp.input = false → isQuestion inp.input = false)
    (vis par : List Expense)
    (hvis : vis = if inp.hasImage then (runVisionAgent inp.hasKey inp.visionRemote).1 else [])
    (hpar : par = if trimEmpty inp.input = false then
        (runParsingAgent inp.hasKey inp.input (buildMemoryContext inp.expenses)
          inp.parsingRemote).1
      else [])
    (hne : vis ++ par ≠ []) :
    (handleSend inp).committed = vis ++ par ∧
    (inp.commitOk = true →
      (handleSend inp).botMessages =
        [{ text := ledgerUpdatedText ((vis ++ par).foldl (fun s e => s + e.amount) 0),
           data := some (vis ++ par) }]) := by
  subst hvis hpar
  cases ht : trimEmpty inp.input <;>
  cases himg : inp.hasImage <;>
  cases hok : inp.commitOk <;>
    simp_all [handleSend]

/-- C3 witness: one vision candidate and one parsed candidate are both
committed and the confirmation reports their total (80 + 120 = 200)
with the full list attached. -/
theorem commit_phase_spec_witness :
    (handleSend sendBothResults).committed = [expCoffeeDrinks, expCoffeeFood] ∧
    (handleSend sendBothResults).botMessages =
      [{ text := ledgerUpdatedText 200,
         data := some [expCoffeeDrinks, expCoffeeFood] }] := by
  have h := commit_phase_spec sendBothResults rfl (Or.inl (by decide))
    (fun _ => rfl) (fun _ => by decide)
    [expCoffeeDrinks] [expCoffeeFood] (by decide) (by decide) (by decide)
  exact ⟨h.1, by simpa using h.2 rfl⟩

/-- C5 counterexample: a non-question text turn with an attached image
and empty extraction results posts no bot message at all — contrary to
the claim that an empty candidate list always yields a
"no transaction found" response. -/
theorem empty_extraction_counterexample :
    sendBothEmpty.input ≠ "" ∧ sendBothEmpty.hasImage = true ∧
    (handleSend sendBothEmpty).committed = [] ∧
    (handleSend sendBothEmpty).botMessages = [] := by
  decide

/-- C5 amended: with an empty combined candidate list nothing is ever
committed, and the response depends on what was supplied: image with
empty text gets the fixed "couldn't identify any clear transactions"
message, non-empty text without an image gets the fixed "couldn't
detect a valid expense transaction." message, and a turn supplying
both text and an image gets no message at all. -/
theorem empty_extraction_messages (inp : SendInput)
    (hp : inp.isProcessing = false)
    (hg : trimEmpty inp.input = false ∨ inp.hasImage = true)
    (hc : inp.hasImage = true → inp.conversionOk = true)
    (hnq : trimEmpty inp.input = false → isQuestion inp.input = false)
    (hempty : (if inp.hasImage then (runVisionAgent inp.hasKey inp.visionRemote).1 else []) ++
      (if trimEmpty inp.input = false then
        (runParsingAgent inp.hasKey inp.input (buildMemoryContext inp.expenses)
          inp.parsingRemote).1
      else []) = []) :
    (handleSend inp).committed = [] ∧
    (inp.input = "" → inp.hasImage = true →
      (handleSend inp).botMessages = [{ text := imageNoTxText }]) ∧
    (inp.input ≠ "" → inp.hasImage = false →
      (handleSend inp).botMessages = [{ text := textNoTxText }]) ∧
    (inp.input ≠ "" → inp.hasImage = true →
      (handleSend inp).botMessages = []) := by
  have h1 : (handleSend inp).committed = [] := by
    cases ht : trimEmpty inp.input <;>
    cases himg : inp.hasImage <;>
      simp_all [handleSend]
  refine ⟨h1, ?_, ?_, ?_⟩
  · intro hin him
    have ht : trimEmpty inp.input = true := by rw [hin]; rfl
    simp_all [handleSend]
  · intro hin him
    have ht : trimEmpty inp.input = false := by
      rcases hg with h | h
      · exact h
      · rw [him] at h; cases h
    have hq := hnq ht
    have hbeq : (inp.input == "") = false := by
      simpa using hin
    simp_all [handleSend]
  · intro hin him
    have hbeq : (inp.input == "") = false := by
      simpa using hin
    cases ht : trimEmpty inp.input <;> simp_all [handleSend]

/-- C5 witness: the claim's own example — image supplied, no text,
empty extraction — gets exactly the fixed image message and commits
nothing. -/
theorem empty_extraction_messages_witness :
    (handleSend sendImageEmpty).committed = [] ∧
    (handleSend sendImageEmpty).botMessages = [{ text := imageNoTxText }] := by
  have h := empty_extraction_messages sendImageEmpty rfl (Or.inr rfl)
    (fun _ => rfl) (fun hf => by cases hf) (by decide)
  exact ⟨h.1, h.2.1 rfl rfl⟩

/-- C10: without an API key both extraction agents return the empty
list without ever invoking the remote service, and consequently a
non-question text-only send commits nothing and answers with the fixed
"couldn't detect a valid expense transaction." message. -/
theorem no_api_key_behavior :
    (∀ (text ctx : String) (remote : List Expense),
      runParsingAgent false text ctx remote = ([], false)) ∧
    (∀ remote : List Expense, runVisionAgent false remote = ([], false)) ∧
    (∀ inp : SendInput, inp.hasKey = false → inp.isProcessing = false →
      inp.hasImage = false → trimEmpty inp.input = false →
      isQuestion inp.input = false →
      (handleSend inp).committed = [] ∧
      (handleSend inp).botMessages = [{ text := textNoTxText }] ∧
      (handleSend inp).parsingRemoteCalled = false) := by
  refine ⟨fun _ _ _ => rfl, fun _ => rfl, ?_⟩
  intro inp hk hp himg ht hq
  have hne : inp.input ≠ "" := trimEmpty_ne_empty ht
  simp_all [handleSend, runParsingAgent, runVisionAgent]

/-- C10 witness: a concrete keyless text send — even though the oracle
would have produced a candidate, nothing is committed, the fixed
message is posted, and the remote parser was never called. -/
theorem no_api_key_behavior_witness :
    (handleSend sendNoKey).committed = [] ∧
    (handleSend sendNoKey).botMessages = [{ text := textNoTxText }] ∧
    (handleSend sendNoKey).parsingRemoteCalled = false :=
  no_api_key_behavior.2.2 sendNoKey rfl rfl rfl (by decide) (by decide)

unseal List.merge List.mergeSort in
/-- C7 counterexample: the mock accessor does not report the creation
instant — read at a later instant it yields the later clock; the
persisted record exposes no accessor at all (the JSON round trip
strips the closure), so the cloud access pattern on stored local
records yields the default 0; and sorting the very records local
create stores with the cloud-pattern key orders them differently from
the local-mode key — the timestamp shape does not make the
descending-by-time sort backend-agnostic. -/
theorem local_timestamp_counterexample :
    cloudKey (mkLocalExpense expCoffeeFood "coffee 120" "id-b" 7500 9999) = 9999 ∧
    (jsonRoundTrip (mkLocalExpense expCoffeeFood "coffee 120" "id-b" 7500 7500)).createdAt =
      some { seconds := 7, nanoseconds := 0, toMillis := none } ∧
    cloudKey (jsonRoundTrip (mkLocalExpense expCoffeeFood "coffee 120" "id-b" 7500 7500)) = 0 ∧
    sortDescBy cloudKey
        (addExpense_local (addExpense_local [] expCoffeeFood "a" "id-a" 5000)
          expCoffeeDrinks "b" "id-b" 9000) ≠
      sortDescBy localKey
        (addExpense_local (addExpense_local [] expCoffeeFood "a" "id-a" 5000)
          expCoffeeDrinks "b" "id-b" 9000) := by
  decide

/-- C7 amended: local-mode create appends a record carrying the fresh
id (ids stay unique when the generated id is fresh) and a mock
timestamp that does expose a `toMillis` accessor — matching the cloud
timestamp's access pattern in shape — but the accessor returns the
clock at call time, not the creation instant, and it does not survive
persistence: the stored record keeps only `seconds`/`nanoseconds`, on
which the cloud-pattern key reads the default 0.  Downstream sorting
is therefore not backend-agnostic through that accessor; instead the
local subscribe path reads the surviving `seconds` field, under which
stored local records still sort descending by creation time. -/
theorem local_create_spec (store : List Expense) (exp : Expense)
    (originalText freshId : String) (now : Nat)
    (hfresh : some freshId ∉ store.map Expense.id) :
    (addExpense_local store exp originalText freshId now).map Expense.id =
      store.map Expense.id ++ [some freshId] ∧
    ((store.map Expense.id).Nodup →
      ((addExpense_local store exp originalText freshId now).map Expense.id).Nodup) ∧
    (∀ t : Nat, cloudKey (mkLocalExpense exp originalText freshId now t) = t) ∧
    (jsonRoundTrip (mkLocalExpense exp originalText freshId now now)).createdAt =
      some { seconds := now / 1000, nanoseconds := 0, toMillis := none } ∧
    cloudKey (jsonRoundTrip (mkLocalExpense exp originalText freshId now now)) = 0 ∧
    localKey (jsonRoundTrip (mkLocalExpense exp originalText freshId now now)) =
      now / 1000 * 1000 ∧
    (∀ (exp₂ : Expense) (ot₂ id₂ : String) (now₂ : Nat),
      now / 1000 ≤ now₂ / 1000 →
      localKey (jsonRoundTrip (mkLocalExpense exp originalText freshId now now)) ≤
        localKey (jsonRoundTrip (mkLocalExpense exp₂ ot₂ id₂ now₂ now₂))) := by
  refine ⟨?_, ?_, ?_, rfl, ?_, ?_, ?_⟩
  · simp [addExpense_local, jsonRoundTrip, mkLocalExpense]
  · intro hnd
    simp [addExpense_local, jsonRoundTrip, mkLocalExpense, List.nodup_append,
      hnd, hfresh]
  · intro t
    simp [cloudKey, mkLocalExpense, mockTs]
  · simp [cloudKey, jsonRoundTrip, jsonRoundTripTs, mkLocalExpense, mockTs]
  · have hk : localKey (jsonRoundTrip (mkLocalExpense exp originalText freshId now now)) =
        if now / 1000 = 0 then 0 else now / 1000 * 1000 := rfl
    rw [hk]
    split_ifs with h <;> omega
  · intro exp₂ ot₂ id₂ now₂ hle
    have hk : localKey (jsonRoundTrip (mkLocalExpense exp originalText freshId now now)) =
        if now / 1000 = 0 then 0 else now / 1000 * 1000 := rfl
    have hk₂ : localKey (jsonRoundTrip (mkLocalExpense exp₂ ot₂ id₂ now₂ now₂)) =
        if now₂ / 1000 = 0 then 0 else now₂ / 1000 * 1000 := rfl
    rw [hk, hk₂]
    split_ifs <;> omega

/-- C7 amended witness: a creation at 7500 ms — the fresh id is
appended and stays unique, the in-memory accessor read at 8888 yields
8888 (call time), the persisted record's cloud-pattern key is 0, its
local key is the whole-second 7000, and the local key orders it below
a record created at 9200 ms. -/
theorem local_create_spec_witness :
    (addExpense_local [expAt 5] expCoffeeFood "coffee 120" "id-b" 7500).map Expense.id =
      [expAt 5].map Expense.id ++ [some "id-b"] ∧
    ((addExpense_local [expAt 5] expCoffeeFood "coffee 120" "id-b" 7500).map Expense.id).Nodup ∧
    cloudKey (mkLocalExpense expCoffeeFood "coffee 120" "id-b" 7500 8888) = 8888 ∧
    cloudKey (jsonRoundTrip (mkLocalExpense expCoffeeFood "coffee 120" "id-b" 7500 7500)) = 0 ∧
    localKey (jsonRoundTrip (mkLocalExpense expCoffeeFood "coffee 120" "id-b" 7500 7500)) = 7000 ∧
    localKey (jsonRoundTrip (mkLocalExpense expCoffeeFood "coffee 120" "id-b" 7500 7500)) ≤
      localKey (jsonRoundTrip (mkLocalExpense expCoffeeDrinks "latte" "id-c" 9200 9200)) := by
  have h := local_create_spec [expAt 5] expCoffeeFood "coffee 120" "id-b" 7500
    (by decide)
  refine ⟨h.1, h.2.1 (by decide), h.2.2.1 8888, h.2.2.2.2.1, ?_, ?_⟩
  · rw [h.2.2.2.2.2.1]
  · exact h.2.2.2.2.2.2 expCoffeeDrinks "latte" "id-c" 9200 (by decide)

/-- Core `lookup` finds a key exactly when the key occurs in the
association list. -/
theorem lookup_isSome_iff (m : List (String × String)) (k : String) :
    ((m.lookup k).isSome = true) ↔ k ∈ m.map Prod.fst := by
  induction m with
  | nil => simp [List.lookup]
  | cons p rest ih =>
    obtain ⟨a, b⟩ := p
    by_cases hk : k = a
    · subst hk
      simp [List.lookup]
    · have hbeq : (k == a) = false := by simpa using hk
      simp [List.lookup, hbeq, hk, ih]

/-- `firstWinsAux` only consults membership in `seen`. -/
theorem firstWinsAux_congr :
    ∀ (l : List (String × String)) (seen seen' : List String),
      (∀ x, x ∈ seen ↔ x ∈ seen') →
      firstWinsAux seen l = firstWinsAux seen' l := by
  intro l
  induction l with
  | nil => intro seen seen' _; rfl
  | cons p rest ih =>
    intro seen seen' h
    by_cases hp : p.1 ∈ seen
    · have hp' : p.1 ∈ seen' := (h p.1).mp hp
      simp [firstWinsAux, hp, hp', ih seen seen' h]
    · have hp' : p.1 ∉ seen' := fun hx => hp ((h p.1).mpr hx)
      simp only [firstWinsAux, hp, hp', if_neg]
      exact congrArg (p :: ·) (ih (p.1 :: seen) (p.1 :: seen')
        (fun x => by simp [h x]))

/-- The `forEach` fold of `buildMemoryContext` is first-occurrence-wins
deduplication of the habit pairs, relative to any starting map. -/
theorem foldl_habitFold (l : List Expense) :
    ∀ m : List (String × String),
      l.foldl habitFold m = m ++ firstWinsAux (m.map Prod.fst) (habitPairs l) := by
  induction l with
  | nil => intro m; simp [habitPairs, firstWinsAux]
  | cons e rest ih =>
    intro m
    rw [List.foldl_cons]
    by_cases he : (e.item != "" && e.category != "") = true
    · have hpair : habitPairs (e :: rest) =
          (normKey e.item, e.category) :: habitPairs rest := by
        simp [habitPairs, toHabitPair, he]
      by_cases hmem : normKey e.item ∈ m.map Prod.fst
      · have hsome : (m.lookup (normKey e.item)).isSome = true :=
          (lookup_isSome_iff m _).mpr hmem
        have hfold : habitFold m e = m := by simp [habitFold, he, hsome]
        rw [hfold, ih m, hpair]
        simp [firstWinsAux, hmem]
      · have hnone : (m.lookup (normKey e.item)).isSome = false :=
          Bool.eq_false_iff.mpr
            (fun hx => hmem ((lookup_isSome_iff m _).mp hx))
        have hfold : habitFold m e = m ++ [(normKey e.item, e.category)] := by
          simp [habitFold, he, hnone]
        rw [hfold, ih (m ++ [(normKey e.item, e.category)]), hpair]
        rw [show firstWinsAux (m.map Prod.fst)
            ((normKey e.item, e.category) :: habitPairs rest) =
            (normKey e.item, e.category) ::
              firstWinsAux (normKey e.item :: m.map Prod.fst)
                (habitPairs rest) from by simp [firstWinsAux, hmem]]
        rw [firstWinsAux_congr (habitPairs rest)
          ((m ++ [(normKey e.item, e.category)]).map Prod.fst)
          (normKey e.item :: m.map Prod.fst)
          (fun x => by simp [or_comm])]
        simp
    · have he' : (e.item != "" && e.category != "") = false :=
        Bool.eq_false_iff.mpr he
      have hfold : habitFold m e = m := by simp [habitFold, he']
      have hpair : habitPairs (e :: rest) = habitPairs rest := by
        simp [habitPairs, toHabitPair, he']
      rw [hfold, ih m, hpair]

/-- Looking up a key not yet seen in the deduplicated list gives the
first binding of the raw pair list. -/
theorem firstWinsAux_lookup :
    ∀ (l : List (String × String)) (seen : List String) (k : String),
      k ∉ seen → (firstWinsAux seen l).lookup k = l.lookup k := by
  intro l
  induction l with
  | nil => intro seen k _; rfl
  | cons p rest ih =>
    intro seen k hk
    obtain ⟨a, b⟩ := p
    by_cases ha : a ∈ seen
    · have hak : (k == a) = false := by
        have hne : k ≠ a := fun h => hk (h ▸ ha)
        simpa using hne
      simp [firstWinsAux, ha, List.lookup, hak, ih seen k hk]
    · by_cases hka : k = a
      · subst hka
        simp [firstWinsAux, ha, List.lookup]
      · have hbeq : (k == a) = false := by simpa using hka
        have hk' : k ∉ a :: seen := by simp [hka, hk]
        simp [firstWinsAux, ha, List.lookup, hbeq, ih (a :: seen) k hk']

/-- The deduplicated list has pairwise-distinct keys, none of them
already seen. -/
theorem firstWinsAux_keys :
    ∀ (l : List (String × String)) (seen : List String),
      ((firstWinsAux seen l).map Prod.fst).Nodup ∧
      ∀ x ∈ (firstWinsAux seen l).map Prod.fst, x ∉ seen := by
  intro l
  induction l with
  | nil => intro seen; simp [firstWinsAux]
  | cons p rest ih =>
    intro seen
    by_cases hp : p.1 ∈ seen
    · simpa [firstWinsAux, hp] using ih seen
    · have h2 := ih (p.1 :: seen)
      have hrw : firstWinsAux seen (p :: rest) =
          p :: firstWinsAux (p.1 :: seen) rest := by
        simp [firstWinsAux, hp]
      rw [hrw]
      constructor
      · simp only [List.map_cons, List.nodup_cons]
        exact ⟨fun hx => (h2.2 p.1 hx) (List.mem_cons_self p.1 seen), h2.1⟩
      · intro x hx
        simp only [List.map_cons, List.mem_cons] at hx
        rcases hx with hx | hx
        · subst hx; exact hp
        · intro hxs
          exact (h2.2 x hx) (List.mem_cons_of_mem _ hxs)

/-- C6: the habit map built by `buildMemoryContext` is exactly the
first-occurrence-wins deduplication of the history's
(lowercased-and-trimmed label, category) pairs: looking up any label
gives the first category ever recorded for it, labels are pairwise
distinct, the rendered context takes only the first 50 labels in
history order, and on the claim's example only `"food"` is retained
for the normalized label `"coffee"`. -/
theorem memory_context_spec (l : List Expense) :
    habitMap l = firstWins (habitPairs l) ∧
    (∀ k : String, (habitMap l).lookup k = (habitPairs l).lookup k) ∧
    ((habitMap l).map Prod.fst).Nodup ∧
    buildMemoryContext l = String.intercalate ", "
      (((firstWins (habitPairs l)).take 50).map
        (fun p => "\"" ++ p.1 ++ "\": \"" ++ p.2 ++ "\"")) ∧
    habitMap [expCoffeeFood, expCoffeeDrinks] = [("coffee", "food")] := by
  have h0 : habitMap l = firstWins (habitPairs l) := by
    simpa [habitMap, firstWins] using foldl_habitFold l []
  refine ⟨h0, ?_, ?_, ?_, by decide⟩
  · intro k
    rw [h0, firstWins]
    exact firstWinsAux_lookup (habitPairs l) [] k (by simp)
  · rw [h0, firstWins]
    exact (firstWinsAux_keys (habitPairs l) []).1
  · rw [buildMemoryContext, h0]

end Astra
